import Mathlib

/-!
Verification of the olrc-importer upload orchestration scripts
(`arch-importer.py`, `warc-importer.py`, `filter.py`) against their
natural-language specification.

The Python scripts drive an external `swiftclient` process.  We embed the
orchestration logic shallowly: each `subprocess.run` boundary becomes an
oracle field of a context structure, and the observable side effects
(state-file saves, CSV records, segment cleanups, upload invocations)
become an explicit event trace.

The file is organised as definitions first, lemmas and theorems second.
-/

namespace OlrcImporter

/-- Maximum number of upload attempts (`MAX_RETRIES = 5` in both importers). -/
def MAX_RETRIES : Nat := 5

/-- Segment size in bytes (`SEGMENT_SIZE = 4*1024**3 + 500*1024**2`). -/
def SEGMENT_SIZE : Nat := 4 * 1024 * 1024 * 1024 + 500 * 1024 * 1024

/-- Segmentation threshold: the literal `5 * 1024 * 1024 * 1024` appearing in
the size test `aip_file.stat().st_size > 5 * 1024 * 1024 * 1024` of
`upload_aip` in both importers. -/
def SEGMENT_THRESHOLD : Nat := 5 * 1024 * 1024 * 1024

/-- Segmented transfer options are added exactly when the file size is
strictly greater than the threshold (the `>` comparison in both importers). -/
def needs_segmentation (size : Nat) : Bool := SEGMENT_THRESHOLD < size

/-- Outcome of one `subprocess.run` upload call inside arch-importer's
`upload_aip` `try` block: normal return with exit code 0, normal return with a
non-zero exit code (carrying stderr), `subprocess.TimeoutExpired`, or
`KeyboardInterrupt`. -/
inductive AttemptOutcome where
| success : AttemptOutcome
| failure (stderr : String) : AttemptOutcome
| timeout : AttemptOutcome
| interrupt : AttemptOutcome
deriving DecidableEq

/-- Observable side effects of the orchestration code. -/
inductive Event where
| cleanup (name : String) : Event
| runUpload (name : String) (segmented : Bool) (attempt : Nat) : Event
| saveState (uploaded : List String) (current : Option String) (currentAttempt : Nat) : Event
| logCsv (name : String) (status : String) (attempts : Nat) (error : String) : Event
| deleteStateFile : Event
deriving DecidableEq

/-- External-world oracles for arch-importer: the pre-flight
`check_object_exists` result, the outcome of each upload attempt for each
file name, and the file size reported by `stat()`. -/
structure UploadCtx where
remoteExists : String → Bool
outcome : String → Nat → AttemptOutcome
size : String → Nat

/-- How arch-importer's `upload_aip` returns: a boolean return value, or a
re-raised `KeyboardInterrupt`. -/
inductive UploadRet where
| ok (b : Bool) : UploadRet
| interrupted : UploadRet
deriving DecidableEq

/-- Events emitted before the upload command starts: `cleanup_segments` is
called when (and only when) `attempt == 1`. -/
def preEvents (name : String) (attempt : Nat) : List Event :=
if attempt = 1 then [Event.cleanup name] else []

/-- Shallow embedding of arch-importer's `upload_aip(aip_file, attempt,
uploaded_files)` (src/arch-importer.py lines 205-272).  Returns the Python
return value, the final `uploaded_files` set (as a list), and the trace of
side effects.  The recursion mirrors the source's self-call
`upload_aip(aip_file, attempt + 1, uploaded_files)`, which happens only
while `attempt < MAX_RETRIES`. -/
def upload_aip (ctx : UploadCtx) (name : String) (uploaded : List String)
(attempt : Nat) : UploadRet × List String × List Event :=
if name ∈ uploaded then
  (UploadRet.ok true, uploaded, [])
else if ctx.remoteExists name then
  (UploadRet.ok true, name :: uploaded,
    [Event.saveState (name :: uploaded) none 1])
else
  match ctx.outcome name attempt with
  | AttemptOutcome.success =>
    (UploadRet.ok true, name :: uploaded,
      preEvents name attempt ++
        [Event.runUpload name (needs_segmentation (ctx.size name)) attempt,
         Event.saveState (name :: uploaded) none 1,
         Event.logCsv name "Success" attempt ""])
  | AttemptOutcome.failure err =>
    if _h : attempt < MAX_RETRIES then
      let r := upload_aip ctx name uploaded (attempt + 1)
      (r.1, r.2.1,
        preEvents name attempt ++
          [Event.runUpload name (needs_segmentation (ctx.size name)) attempt,
           Event.saveState uploaded (some name) (attempt + 1)] ++ r.2.2)
    else
      (UploadRet.ok false, uploaded,
        preEvents name attempt ++
          [Event.runUpload name (needs_segmentation (ctx.size name)) attempt,
           Event.logCsv name "Failed" attempt err])
  | AttemptOutcome.timeout =>
    if _h : attempt < MAX_RETRIES then
      let r := upload_aip ctx name uploaded (attempt + 1)
      (r.1, r.2.1,
        preEvents name attempt ++
          [Event.runUpload name (needs_segmentation (ctx.size name)) attempt,
           Event.saveState uploaded (some name) (attempt + 1)] ++ r.2.2)
    else
      (UploadRet.ok false, uploaded,
        preEvents name attempt ++
          [Event.runUpload name (needs_segmentation (ctx.size name)) attempt,
           Event.logCsv name "Failed" attempt "Timeout"])
  | AttemptOutcome.interrupt =>
    (UploadRet.interrupted, uploaded,
      preEvents name attempt ++
        [Event.runUpload name (needs_segmentation (ctx.size name)) attempt,
         Event.saveState uploaded (some name) attempt])
termination_by MAX_RETRIES - attempt
decreasing_by all_goals omega

/-- The 1-based attempt numbers at which an upload command actually ran. -/
def uploadAttempts (evs : List Event) : List Nat :=
evs.filterMap fun e =>
  match e with
  | Event.runUpload _ _ a => some a
  | _ => none

/-- The CSV records appended by `log_to_csv`, in order:
(filename, status, attempts, error). -/
def csvRecords (evs : List Event) : List (String × String × Nat × String) :=
evs.filterMap fun e =>
  match e with
  | Event.logCsv n s a err => some (n, s, a, err)
  | _ => none

/-- Number of `cleanup_segments` invocations in a trace. -/
def cleanupCount (evs : List Event) : Nat :=
(evs.filter fun e =>
  match e with
  | Event.cleanup _ => true
  | _ => false).length

/-- An attempt outcome that makes the upload command fail: non-zero exit
status or timeout (never a clean success, never a KeyboardInterrupt). -/
def failingOutcome : AttemptOutcome → Bool
| AttemptOutcome.failure _ => true
| AttemptOutcome.timeout => true
| _ => false

/-- The per-file filter in arch-importer's `main`:
`remaining_files = [f for f in aip_files if f.name not in uploaded_files]`. -/
def remainingFiles (tasks uploaded : List String) : List String :=
tasks.filter fun f => decide (f ∉ uploaded)

/-- The per-file loop in arch-importer's `main` (lines 329-332): run
`upload_aip` on each file in order; a `KeyboardInterrupt` raised by
`upload_aip` aborts the loop, a `False` return does not.  Returns the
per-file terminal results in order, the final completed set, the combined
event trace, and whether the loop was interrupted. -/
def arch_loop (ctx : UploadCtx) (files uploaded : List String) :
    List (String × Bool) × List String × List Event × Bool :=
match files with
| [] => ([], uploaded, [], false)
| f :: rest =>
  let r := upload_aip ctx f uploaded 1
  match r.1 with
  | UploadRet.interrupted => ([], r.2.1, r.2.2, true)
  | UploadRet.ok b =>
    let r2 := arch_loop ctx rest r.2.1
    ((f, b) :: r2.1, r2.2.1, r.2.2 ++ r2.2.2.1, r2.2.2.2)

/-- Arch-importer `main` from the resume filter through the post-loop state
cleanup (lines 290-342): filter out already-completed names, run the loop,
and — unless a `KeyboardInterrupt` stopped the loop — unconditionally delete
the persisted state file (`STATE_FILE.unlink()`), even if some uploads ended
in terminal failure. -/
def arch_main (ctx : UploadCtx) (tasks uploaded0 : List String) :
    List (String × Bool) × List String × List Event × Bool :=
let r := arch_loop ctx (remainingFiles tasks uploaded0) uploaded0
if r.2.2.2 then r
else (r.1, r.2.1, r.2.2.1 ++ [Event.deleteStateFile], false)

/-- Effect of one event on the persisted state artifact: a save overwrites it
with the saved triple, the post-loop unlink removes it, everything else
leaves it alone. -/
def applyStateEvent (st : Option (List String × Option String × Nat))
    (e : Event) : Option (List String × Option String × Nat) :=
match e with
| Event.saveState up cur ca => some (up, cur, ca)
| Event.deleteStateFile => none
| _ => st

/-- The state artifact on disk after a trace has run, starting from `init`
(`none` means the state file is absent). -/
def finalStateFile (init : Option (List String × Option String × Nat))
    (evs : List Event) : Option (List String × Option String × Nat) :=
evs.foldl applyStateEvent init

/-- The payload of the last `saveState` event of a trace: what a process
killed right after the trace would find on disk at the next `load_state`. -/
def lastSavedState : List Event → Option (List String × Option String × Nat)
| [] => none
| e :: rest =>
  match lastSavedState rest with
  | some v => some v
  | none =>
    match e with
    | Event.saveState up cur ca => some (up, cur, ca)
    | _ => none

/-- Outcome of one `subprocess.run(..., check=True)` upload call inside
warc-importer's `upload_aip`: normal return (exit 0), a raised
`CalledProcessError` (non-zero exit, carrying stderr), or a raised
`subprocess.TimeoutExpired`. -/
inductive WarcOutcome where
| success : WarcOutcome
| failure (stderr : String) : WarcOutcome
| timeout : WarcOutcome
deriving DecidableEq

/-- External-world oracles for warc-importer: the outcome of each upload
attempt for each file, and the file size from `stat()`. -/
structure WarcCtx where
outcome : String → Nat → WarcOutcome
size : String → Nat

/-- Shallow embedding of warc-importer's `upload_aip(aip_file, attempt)`
(src/warc-importer.py lines 123-188): one upload attempt, then shared retry
logic that recurses while `attempt < MAX_RETRIES` and otherwise records the
terminal `Failed` CSV row with the last attempt's error message.  (The remote
object-name derivation from the path is identity-elided: files are identified
by name here; no claim depends on the derived prefix.) -/
def warc_upload_aip (ctx : WarcCtx) (name : String) (attempt : Nat) :
    Bool × List Event :=
match ctx.outcome name attempt with
| WarcOutcome.success =>
  (true, [Event.runUpload name (needs_segmentation (ctx.size name)) attempt,
          Event.logCsv name "Success" attempt ""])
| WarcOutcome.failure err =>
  if _h : attempt < MAX_RETRIES then
    let r := warc_upload_aip ctx name (attempt + 1)
    (r.1, Event.runUpload name (needs_segmentation (ctx.size name)) attempt :: r.2)
  else
    (false, [Event.runUpload name (needs_segmentation (ctx.size name)) attempt,
             Event.logCsv name "Failed" attempt err])
| WarcOutcome.timeout =>
  if _h : attempt < MAX_RETRIES then
    let r := warc_upload_aip ctx name (attempt + 1)
    (r.1, Event.runUpload name (needs_segmentation (ctx.size name)) attempt :: r.2)
  else
    (false, [Event.runUpload name (needs_segmentation (ctx.size name)) attempt,
             Event.logCsv name "Failed" attempt
               "Upload timed out after 14400 seconds"])
termination_by MAX_RETRIES - attempt
decreasing_by all_goals omega

/-- A warc attempt outcome that makes the upload command fail. -/
def failingWarcOutcome : WarcOutcome → Bool
| WarcOutcome.failure _ => true
| WarcOutcome.timeout => true
| _ => false

/-- The warc-importer main upload loop (lines 244-247): every file is
processed with `upload_aip`; a `False` return only affects the success
count. -/
def warc_loop (ctx : WarcCtx) (files : List String) : List (String × Bool) :=
files.map fun f => (f, (warc_upload_aip ctx f 1).1)

/-- The test file warc-importer's `main` picks before the loop
(lines 222-242): the first file smaller than 100MB, or, when none is
smaller, the first file. -/
def warcTestFile (ctx : WarcCtx) (f : String) (rest : List String) : String :=
match (f :: rest).filter (fun g => decide (ctx.size g < 100 * 1024 * 1024)) with
| t :: _ => t
| [] => f

/-- Warc-importer `main` from the test upload through the loop
(lines 222-247): with a non-empty file list, the chosen test file is
uploaded first; if that upload returns `False`, `main` prints
"Test upload failed. Stopping." and returns before the loop, so no file
receives a loop result (second component `true` marks this abort).
Otherwise the loop processes every file, the test file included again. -/
def warc_main (ctx : WarcCtx) (files : List String) :
    List (String × Bool) × Bool :=
match files with
| [] => ([], false)
| f :: rest =>
  if (warc_upload_aip ctx (warcTestFile ctx f rest) 1).1 then
    (warc_loop ctx (f :: rest), false)
  else
    ([], true)

/-- The parsed content of the persisted state artifact
(`uploaded_files`, `current_file`, `current_attempt`). -/
structure SavedState where
uploaded_files : List String
current_file : Option String
current_attempt : Nat
deriving DecidableEq

/-- The two disk locations `load_state` touches: the state file itself and
its `.json.corrupted` sibling (each `none` when the file is absent,
otherwise the file's text). -/
structure StateFs where
stateFile : Option String
corruptedBackup : Option String
deriving DecidableEq

/-- The exact 29-character set for which Python's `str.isspace()` is true —
the characters `str.strip()` removes: ASCII whitespace U+0009–U+000D and
space, the separator controls U+001C–U+001F, NEL U+0085, NBSP U+00A0, Ogham
space U+1680, the typographic spaces U+2000–U+200A, the line and paragraph
separators U+2028/U+2029, U+202F, U+205F and the ideographic space U+3000. -/
def pySpaceChars : List Char :=
['\t', '\n', '\x0b', '\x0c', '\r', '\x1c', '\x1d', '\x1e', '\x1f', ' ',
 '\x85', '\xa0', '\u1680', '\u2000', '\u2001', '\u2002', '\u2003',
 '\u2004', '\u2005', '\u2006', '\u2007', '\u2008', '\u2009', '\u200a',
 '\u2028', '\u2029', '\u202f', '\u205f', '\u3000']

/-- Python's whitespace test used by `str.strip()`. -/
def isPySpace (c : Char) : Bool := pySpaceChars.contains c

/-- Python's `str.strip()`: drop leading and trailing whitespace. -/
def pyStrip (s : String) : String :=
⟨((s.data.dropWhile isPySpace).reverse.dropWhile isPySpace).reverse⟩

/-- Shallow embedding of arch-importer's `load_state()` (lines 68-95).
`parse` stands for `json.loads` plus the key checks: it returns `none` when
the Python code would raise `JSONDecodeError`/`KeyError`/`ValueError`.
Missing file: fresh state (`none`).  Content empty after `strip()`: prints a
warning and returns fresh, touching nothing.  Unparseable content: renames
the state file to the `.json.corrupted` sibling and returns fresh. -/
def load_state (parse : String → Option SavedState) (fs : StateFs) :
    Option SavedState × StateFs :=
match fs.stateFile with
| none => (none, fs)
| some content =>
  if pyStrip content = "" then
    (none, fs)
  else
    match parse (pyStrip content) with
    | some st => (some st, fs)
    | none => (none, { stateFile := none, corruptedBackup := some content })

/-- File-system operations `save_state` can perform. -/
inductive FsOp where
| mkdirParents (path : String) : FsOp
| writeFile (path : String) (content : String) : FsOp
| renameFile (src dst : String) : FsOp
deriving DecidableEq

/-- The path of the persisted state artifact (`STATE_FILE`). -/
def STATE_FILE_PATH : String := "arch-logs/10-6-2-upload-state.json"

/-- The parent directory of the state artifact. -/
def STATE_DIR_PATH : String := "arch-logs"

/-- Shallow embedding of arch-importer's `save_state` (lines 52-66) as the
sequence of file-system operations it performs on its serialized state:
`STATE_FILE.parent.mkdir(parents=True, exist_ok=True)` followed by
`open(STATE_FILE, 'w')` + `json.dump` — a single direct write to the final
path, with no temporary file and no rename. -/
def save_state_ops (serialized : String) : List FsOp :=
[FsOp.mkdirParents STATE_DIR_PATH, FsOp.writeFile STATE_FILE_PATH serialized]

/-- Modelled from the spec: "save … must write to a temporary location and
rename/replace, or equivalent".  An operation sequence has the atomic
write-then-rename shape when no write targets the final state path directly
and some rename produces the final state path. -/
def atomicSavePattern (ops : List FsOp) : Bool :=
(ops.all fun op =>
  match op with
  | FsOp.writeFile p _ => decide (p ≠ STATE_FILE_PATH)
  | _ => true) &&
(ops.any fun op =>
  match op with
  | FsOp.renameFile _ dst => decide (dst = STATE_FILE_PATH)
  | _ => false)

/-- Is `needle` a prefix of `hay` (character lists)? -/
def prefixChars : List Char → List Char → Bool
| [], _ => true
| _ :: _, [] => false
| n :: ns, h :: hs => n == h && prefixChars ns hs

/-- Does `needle` occur contiguously anywhere in the character list? -/
def infixChars (needle : List Char) : List Char → Bool
| [] => prefixChars needle []
| h :: hs => prefixChars needle (h :: hs) || infixChars needle hs

/-- Python's substring test `needle in hay` for strings. -/
def strContains (hay needle : String) : Bool :=
infixChars needle.data hay.data

/-- Outcome of one delete `subprocess.run(..., timeout=30)` call inside
`cleanup_segments`: a normal return, whose exit status the source ignores
(no `check=True` is passed), or a raised exception — e.g. `TimeoutExpired`
after 30 seconds — which propagates out of the delete loop into the
function's outer `except`. -/
inductive DeleteOutcome where
| exit (ok : Bool) : DeleteOutcome
| raised : DeleteOutcome
deriving DecidableEq

/-- External-world oracles for `cleanup_segments`: whether the segment
listing command exited with 0 (a listing call that raises, e.g. times out,
behaves like `listOk = false` as far as this model observes: no deletions
and a `None` return), the listed segment keys (stdout lines), and the
outcome of each individual delete command. -/
structure SwiftCtx where
listOk : Bool
listing : List String
deleteRes : String → DeleteOutcome

/-- The segment keys `cleanup_segments` selects: non-empty listed lines
containing `filename` as a substring
(`[line for line in result.stdout.split('\n') if line and filename in line]`). -/
def selectedSegments (listing : List String) (filename : String) : List String :=
listing.filter fun line => !(line == "") && strContains line filename

/-- The `for segment in segments:` delete loop.  A delete that returns
normally is recorded with its (ignored) exit status and the loop continues;
a delete that raises aborts the loop — the remaining segments are not
attempted — and the exception lands in the function's outer
`except Exception` (recorded as the `true` flag). -/
def runDeletes (deleteRes : String → DeleteOutcome) :
    List String → List (String × Bool) × Bool
| [] => ([], false)
| s :: rest =>
  match deleteRes s with
  | DeleteOutcome.exit ok =>
    let r := runDeletes deleteRes rest
    ((s, ok) :: r.1, r.2)
  | DeleteOutcome.raised => ([], true)

/-- Shallow embedding of arch-importer's `cleanup_segments(filename)`
(lines 97-118).  When the listing succeeds, the selected segments are
deleted one by one by `runDeletes`; any raise is swallowed by the outer
`except Exception: print(...)`, so the call always returns normally.  The
first component is the attempted deletions with their exit statuses plus the
aborted-by-raise flag; the last component is the Python return value, which
is always `None` — the function has no `return` statement. -/
def cleanup_segments (ctx : SwiftCtx) (filename : String) :
    (List (String × Bool) × Bool) × Option Nat :=
if ctx.listOk then
  (runDeletes ctx.deleteRes (selectedSegments ctx.listing filename), none)
else
  (([], false), none)

/-- A context in which every upload attempt exits with a non-zero status. -/
def ctxAllFail : UploadCtx :=
⟨fun _ => false, fun _ _ => AttemptOutcome.failure "socket reset", fun _ => 0⟩

/-- A context in which the pre-flight existence check always succeeds. -/
def ctxRemoteHas : UploadCtx :=
⟨fun _ => true, fun _ _ => AttemptOutcome.success, fun _ => 0⟩

/-- A context in which every upload attempt succeeds and nothing exists
remotely. -/
def ctxAllOk : UploadCtx :=
⟨fun _ => false, fun _ _ => AttemptOutcome.success, fun _ => 0⟩

/-- An always-failing context for a 6GB (segmented) file. -/
def ctxBigFail : UploadCtx :=
⟨fun _ => false, fun _ _ => AttemptOutcome.failure "segment error",
 fun _ => 6 * 1024 * 1024 * 1024⟩

/-- A warc context in which every upload attempt fails. -/
def wctxAllFail : WarcCtx :=
⟨fun _ _ => WarcOutcome.failure "auth expired", fun _ => 0⟩

/-- A concrete segment-container state: two orphaned segments of
`big.7z` and one unrelated entry, with all deletes returning exit 0. -/
def swiftCtxOrphans : SwiftCtx :=
⟨true, ["big.7z/slo/000001", "big.7z/slo/000002", "unrelated.7z/slo/000001"],
 fun _ => DeleteOutcome.exit true⟩

/-- The same container state, but the delete of the second matching segment
times out (raises). -/
def swiftCtxRaise : SwiftCtx :=
⟨true, ["big.7z/slo/000001", "big.7z/slo/000002", "unrelated.7z/slo/000001"],
 fun s => if s == "big.7z/slo/000002" then DeleteOutcome.raised
          else DeleteOutcome.exit true⟩

@[simp]
lemma uploadAttempts_nil : uploadAttempts [] = [] := rfl

@[simp]
lemma uploadAttempts_cons_cleanup (n : String) (evs : List Event) :
    uploadAttempts (Event.cleanup n :: evs) = uploadAttempts evs := by
  simp [uploadAttempts]

@[simp]
lemma uploadAttempts_cons_run (n : String) (b : Bool) (a : Nat) (evs : List Event) :
    uploadAttempts (Event.runUpload n b a :: evs) = a :: uploadAttempts evs := by
  simp [uploadAttempts]

@[simp]
lemma uploadAttempts_cons_save (up : List String) (c : Option String) (ca : Nat)
    (evs : List Event) :
    uploadAttempts (Event.saveState up c ca :: evs) = uploadAttempts evs := by
  simp [uploadAttempts]

@[simp]
lemma uploadAttempts_cons_log (n s : String) (a : Nat) (err : String)
    (evs : List Event) :
    uploadAttempts (Event.logCsv n s a err :: evs) = uploadAttempts evs := by
  simp [uploadAttempts]

@[simp]
lemma uploadAttempts_cons_del (evs : List Event) :
    uploadAttempts (Event.deleteStateFile :: evs) = uploadAttempts evs := by
  simp [uploadAttempts]

@[simp]
lemma uploadAttempts_append (xs ys : List Event) :
    uploadAttempts (xs ++ ys) = uploadAttempts xs ++ uploadAttempts ys := by
  simp [uploadAttempts]

@[simp]
lemma uploadAttempts_preEvents (name : String) (a : Nat) :
    uploadAttempts (preEvents name a) = [] := by
  unfold preEvents
  split <;> simp

@[simp]
lemma csvRecords_nil : csvRecords [] = [] := rfl

@[simp]
lemma csvRecords_cons_cleanup (n : String) (evs : List Event) :
    csvRecords (Event.cleanup n :: evs) = csvRecords evs := by
  simp [csvRecords]

@[simp]
lemma csvRecords_cons_run (n : String) (b : Bool) (a : Nat) (evs : List Event) :
    csvRecords (Event.runUpload n b a :: evs) = csvRecords evs := by
  simp [csvRecords]

@[simp]
lemma csvRecords_cons_save (up : List String) (c : Option String) (ca : Nat)
    (evs : List Event) :
    csvRecords (Event.saveState up c ca :: evs) = csvRecords evs := by
  simp [csvRecords]

@[simp]
lemma csvRecords_cons_log (n s : String) (a : Nat) (err : String) (evs : List Event) :
    csvRecords (Event.logCsv n s a err :: evs) = (n, s, a, err) :: csvRecords evs := by
  simp [csvRecords]

@[simp]
lemma csvRecords_cons_del (evs : List Event) :
    csvRecords (Event.deleteStateFile :: evs) = csvRecords evs := by
  simp [csvRecords]

@[simp]
lemma csvRecords_append (xs ys : List Event) :
    csvRecords (xs ++ ys) = csvRecords xs ++ csvRecords ys := by
  simp [csvRecords]

@[simp]
lemma csvRecords_preEvents (name : String) (a : Nat) :
    csvRecords (preEvents name a) = [] := by
  unfold preEvents
  split <;> simp

@[simp]
lemma cleanupCount_nil : cleanupCount [] = 0 := rfl

@[simp]
lemma cleanupCount_cons_cleanup (n : String) (evs : List Event) :
    cleanupCount (Event.cleanup n :: evs) = cleanupCount evs + 1 := by
  simp [cleanupCount, List.length_cons]

@[simp]
lemma cleanupCount_cons_run (n : String) (b : Bool) (a : Nat) (evs : List Event) :
    cleanupCount (Event.runUpload n b a :: evs) = cleanupCount evs := by
  simp [cleanupCount]

@[simp]
lemma cleanupCount_cons_save (up : List String) (c : Option String) (ca : Nat)
    (evs : List Event) :
    cleanupCount (Event.saveState up c ca :: evs) = cleanupCount evs := by
  simp [cleanupCount]

@[simp]
lemma cleanupCount_cons_log (n s : String) (a : Nat) (err : String) (evs : List Event) :
    cleanupCount (Event.logCsv n s a err :: evs) = cleanupCount evs := by
  simp [cleanupCount]

@[simp]
lemma cleanupCount_cons_del (evs : List Event) :
    cleanupCount (Event.deleteStateFile :: evs) = cleanupCount evs := by
  simp [cleanupCount]

@[simp]
lemma cleanupCount_append (xs ys : List Event) :
    cleanupCount (xs ++ ys) = cleanupCount xs + cleanupCount ys := by
  simp [cleanupCount]

/-- When every attempt on a file fails (non-zero exit or timeout), the retry
ladder starting at attempt `a` (for `1 ≤ a ≤ MAX_RETRIES`) returns `False`,
leaves the completed set unchanged, runs the upload command at exactly the
attempts `a, a+1, …, MAX_RETRIES`, and appends a single `Failed` CSV record
with the attempt count `MAX_RETRIES`. -/
lemma upload_aip_all_fail_aux (ctx : UploadCtx) (name : String)
    (hrem : ctx.remoteExists name = false)
    (hfail : ∀ n, failingOutcome (ctx.outcome name n) = true) :
    ∀ (k a : Nat), 1 ≤ a → a ≤ MAX_RETRIES → MAX_RETRIES - a = k →
      ∀ uploaded : List String, name ∉ uploaded →
      (upload_aip ctx name uploaded a).1 = UploadRet.ok false ∧
      (upload_aip ctx name uploaded a).2.1 = uploaded ∧
      uploadAttempts (upload_aip ctx name uploaded a).2.2 =
        List.range' a (MAX_RETRIES + 1 - a) ∧
      ∃ err, csvRecords (upload_aip ctx name uploaded a).2.2 =
        [(name, "Failed", MAX_RETRIES, err)] := by
  intro k
  induction k with
  | zero =>
    intro a ha1 ha5 hk uploaded hmem
    have ha : a = MAX_RETRIES := by omega
    subst ha
    have hfa := hfail MAX_RETRIES
    rw [upload_aip]
    cases hout : ctx.outcome name MAX_RETRIES with
    | success => rw [hout] at hfa; simp [failingOutcome] at hfa
    | interrupt => rw [hout] at hfa; simp [failingOutcome] at hfa
    | failure err =>
      have hlt : ¬ MAX_RETRIES < MAX_RETRIES := by omega
      refine ⟨?_, ?_, ?_, err, ?_⟩ <;> simp [hmem, hrem, hlt]
    | timeout =>
      have hlt : ¬ MAX_RETRIES < MAX_RETRIES := by omega
      refine ⟨?_, ?_, ?_, "Timeout", ?_⟩ <;> simp [hmem, hrem, hlt]
  | succ k ih =>
    intro a ha1 ha5 hk uploaded hmem
    have halt : a < MAX_RETRIES := by omega
    obtain ⟨h1, h2, h3, err, h4⟩ :=
      ih (a + 1) (by omega) (by omega) (by omega) uploaded hmem
    have hrange : MAX_RETRIES + 1 - a = (MAX_RETRIES + 1 - (a + 1)) + 1 := by omega
    have hfa := hfail a
    rw [upload_aip]
    cases hout : ctx.outcome name a with
    | success => rw [hout] at hfa; simp [failingOutcome] at hfa
    | interrupt => rw [hout] at hfa; simp [failingOutcome] at hfa
    | failure e =>
      refine ⟨?_, ?_, ?_, err, ?_⟩ <;> simp [hmem, hrem, halt]
      · exact h1
      · exact h2
      · rw [h3, hrange, List.range'_succ]
      · exact h4
    | timeout =>
      refine ⟨?_, ?_, ?_, err, ?_⟩ <;> simp [hmem, hrem, halt]
      · exact h1
      · exact h2
      · rw [h3, hrange, List.range'_succ]
      · exact h4

/-- Warc analogue of `upload_aip_all_fail_aux`: when every attempt fails,
the ladder from attempt `a ≤ MAX_RETRIES` returns `False`, runs attempts
`a, …, MAX_RETRIES`, and records one `Failed` row with `MAX_RETRIES`. -/
lemma warc_upload_all_fail_aux (ctx : WarcCtx) (name : String)
    (hfail : ∀ n, failingWarcOutcome (ctx.outcome name n) = true) :
    ∀ (k a : Nat), 1 ≤ a → a ≤ MAX_RETRIES → MAX_RETRIES - a = k →
      (warc_upload_aip ctx name a).1 = false ∧
      uploadAttempts (warc_upload_aip ctx name a).2 =
        List.range' a (MAX_RETRIES + 1 - a) ∧
      ∃ err, csvRecords (warc_upload_aip ctx name a).2 =
        [(name, "Failed", MAX_RETRIES, err)] := by
  intro k
  induction k with
  | zero =>
    intro a ha1 ha5 hk
    have ha : a = MAX_RETRIES := by omega
    subst ha
    have hfa := hfail MAX_RETRIES
    rw [warc_upload_aip]
    cases hout : ctx.outcome name MAX_RETRIES with
    | success => rw [hout] at hfa; simp [failingWarcOutcome] at hfa
    | failure err =>
      have hlt : ¬ MAX_RETRIES < MAX_RETRIES := by omega
      refine ⟨?_, ?_, err, ?_⟩ <;> simp [hlt]
    | timeout =>
      have hlt : ¬ MAX_RETRIES < MAX_RETRIES := by omega
      refine ⟨?_, ?_, "Upload timed out after 14400 seconds", ?_⟩ <;> simp [hlt]
  | succ k ih =>
    intro a ha1 ha5 hk
    have halt : a < MAX_RETRIES := by omega
    obtain ⟨h1, h3, err, h4⟩ := ih (a + 1) (by omega) (by omega) (by omega)
    have hrange : MAX_RETRIES + 1 - a = (MAX_RETRIES + 1 - (a + 1)) + 1 := by omega
    have hfa := hfail a
    rw [warc_upload_aip]
    cases hout : ctx.outcome name a with
    | success => rw [hout] at hfa; simp [failingWarcOutcome] at hfa
    | failure e =>
      refine ⟨?_, ?_, err, ?_⟩ <;> simp [halt]
      · exact h1
      · rw [h3, hrange, List.range'_succ]
      · exact h4
    | timeout =>
      refine ⟨?_, ?_, err, ?_⟩ <;> simp [halt]
      · exact h1
      · rw [h3, hrange, List.range'_succ]
      · exact h4

/-- Claim C1 (arch-importer and warc-importer): starting at the 1-based
attempt 1 on a file that is not already completed and not present remotely,
if the upload command fails (non-zero exit or timeout) on every attempt, then
with `MAX_RETRIES = 5` the function returns `False`, the upload command runs
at exactly the attempts 1,2,3,4,5 (so the 5th attempt is terminal and retries
happened only while the attempt number was strictly below 5), and the one
recorded result is `Failed` with `attempts = 5`. -/
theorem C1_retry_bound (ctx : UploadCtx) (wctx : WarcCtx) (name : String)
    (uploaded : List String)
    (hmem : name ∉ uploaded) (hrem : ctx.remoteExists name = false)
    (hfail : ∀ n, failingOutcome (ctx.outcome name n) = true)
    (hwfail : ∀ n, failingWarcOutcome (wctx.outcome name n) = true) :
    ((upload_aip ctx name uploaded 1).1 = UploadRet.ok false ∧
     uploadAttempts (upload_aip ctx name uploaded 1).2.2 = [1, 2, 3, 4, 5] ∧
     ∃ err, csvRecords (upload_aip ctx name uploaded 1).2.2 =
       [(name, "Failed", 5, err)]) ∧
    ((warc_upload_aip wctx name 1).1 = false ∧
     uploadAttempts (warc_upload_aip wctx name 1).2 = [1, 2, 3, 4, 5] ∧
     ∃ err, csvRecords (warc_upload_aip wctx name 1).2 =
       [(name, "Failed", 5, err)]) := by
  constructor
  · obtain ⟨h1, _h2, h3, err, h4⟩ :=
      upload_aip_all_fail_aux ctx name hrem hfail (MAX_RETRIES - 1) 1
        (by omega) (by simp [MAX_RETRIES]) rfl uploaded hmem
    refine ⟨h1, ?_, err, ?_⟩
    · rw [h3]
      simp [MAX_RETRIES]
      rfl
    · rw [h4]
      simp [MAX_RETRIES]
  · obtain ⟨h1, h3, err, h4⟩ :=
      warc_upload_all_fail_aux wctx name hwfail (MAX_RETRIES - 1) 1
        (by omega) (by simp [MAX_RETRIES]) rfl
    refine ⟨h1, ?_, err, ?_⟩
    · rw [h3]
      simp [MAX_RETRIES]
      rfl
    · rw [h4]
      simp [MAX_RETRIES]

/-- Witness for C1: concrete runs of the always-failing contexts on one
file. -/
theorem C1_retry_bound_witness :
    (((upload_aip ctxAllFail "aip-0001.7z" [] 1).1 = UploadRet.ok false ∧
      uploadAttempts (upload_aip ctxAllFail "aip-0001.7z" [] 1).2.2 =
        [1, 2, 3, 4, 5] ∧
      ∃ err, csvRecords (upload_aip ctxAllFail "aip-0001.7z" [] 1).2.2 =
        [("aip-0001.7z", "Failed", 5, err)]) ∧
     ((warc_upload_aip wctxAllFail "aip-0001.7z" 1).1 = false ∧
      uploadAttempts (warc_upload_aip wctxAllFail "aip-0001.7z" 1).2 =
        [1, 2, 3, 4, 5] ∧
      ∃ err, csvRecords (warc_upload_aip wctxAllFail "aip-0001.7z" 1).2 =
        [("aip-0001.7z", "Failed", 5, err)])) :=
  C1_retry_bound ctxAllFail wctxAllFail "aip-0001.7z" []
    (by simp) rfl (fun n => rfl) (fun n => rfl)

/-- Claim C2: an already-completed name short-circuits `upload_aip` with no
re-upload, no state write, and no CSV record; a name found remotely by the
pre-flight check is registered in the completed set and the state is saved
(the only emitted event) before the function returns `True`, again with no
upload command and no CSV record; and an already-completed name is filtered
out of `remaining_files`, so re-running with `completed = {A}` over tasks
`{A, B}` processes only `B`. -/
theorem C2_idempotent_resume (ctx : UploadCtx) (name : String)
    (uploaded tasks : List String) (attempt : Nat) :
    (name ∈ uploaded →
      upload_aip ctx name uploaded attempt = (UploadRet.ok true, uploaded, [])) ∧
    (name ∉ uploaded → ctx.remoteExists name = true →
      upload_aip ctx name uploaded attempt =
        (UploadRet.ok true, name :: uploaded,
          [Event.saveState (name :: uploaded) none 1])) ∧
    (name ∈ uploaded → name ∉ remainingFiles tasks uploaded) := by
  refine ⟨?_, ?_, ?_⟩
  · intro hmem
    rw [upload_aip]
    simp [hmem]
  · intro hmem hrem
    rw [upload_aip]
    simp [hmem, hrem]
  · intro hmem
    simp [remainingFiles, List.mem_filter, hmem]

/-- Witness for C2: completed set `{A}`, tasks `{A, B}`, `B` present
remotely. -/
theorem C2_idempotent_resume_witness :
    upload_aip ctxRemoteHas "A.7z" ["A.7z"] 1 = (UploadRet.ok true, ["A.7z"], []) ∧
    upload_aip ctxRemoteHas "B.7z" ["A.7z"] 1 =
      (UploadRet.ok true, ["B.7z", "A.7z"],
        [Event.saveState ["B.7z", "A.7z"] none 1]) ∧
    "A.7z" ∉ remainingFiles ["A.7z", "B.7z"] ["A.7z"] :=
  ⟨(C2_idempotent_resume ctxRemoteHas "A.7z" ["A.7z"] ["A.7z", "B.7z"] 1).1
      (by simp),
   (C2_idempotent_resume ctxRemoteHas "B.7z" ["A.7z"] ["A.7z", "B.7z"] 1).2.1
      (by simp) rfl,
   (C2_idempotent_resume ctxRemoteHas "A.7z" ["A.7z"] ["A.7z", "B.7z"] 1).2.2
      (by simp)⟩

/-- Claim C5: segmentation is decided by a strict `>` comparison against the
5GB threshold — a file of exactly `SEGMENT_THRESHOLD` bytes is uploaded
without segmentation, `SEGMENT_THRESHOLD + 1` bytes with segmentation, and in
general `needs_segmentation size = true` iff `size > SEGMENT_THRESHOLD`
(this is the predicate applied to `ctx.size` by both importers' upload
paths). -/
theorem C5_segmentation_boundary :
    needs_segmentation SEGMENT_THRESHOLD = false ∧
    needs_segmentation (SEGMENT_THRESHOLD + 1) = true ∧
    ∀ size : Nat, needs_segmentation size = true ↔ SEGMENT_THRESHOLD < size := by
  refine ⟨?_, ?_, fun size => ?_⟩
  · simp [needs_segmentation]
  · simp [needs_segmentation]
  · simp [needs_segmentation]

/-- Witness for C5 at a concrete size just above the threshold. -/
theorem C5_segmentation_boundary_witness :
    needs_segmentation (SEGMENT_THRESHOLD + 1) = true :=
  C5_segmentation_boundary.2.1

/-- Counterexample to claim C3: a state file truncated to zero bytes is an
invalid (unparseable) artifact, yet `load_state` returns a fresh state
without creating any `.corrupted` backup — the empty-content branch returns
before the backup code runs. -/
theorem C3_corrupt_state_counterexample :
    (load_state (fun _ => none) ⟨some "", none⟩).1 = none ∧
    (load_state (fun _ => none) ⟨some "", none⟩).2.corruptedBackup = none := by
  constructor <;> rfl

/-- Claim C3 as amended: `load_state` is total (never raises); a missing
file yields a fresh empty state; corrupt content that is non-empty after
stripping is backed up to the `.json.corrupted` sibling and a fresh state is
returned; content that is empty after stripping yields a fresh state with no
backup; and parseable content is returned as-is. -/
theorem C3_corrupt_state_recovery (parse : String → Option SavedState)
    (content : String) (b : Option String) :
    (load_state parse ⟨none, b⟩ = (none, ⟨none, b⟩)) ∧
    (pyStrip content ≠ "" → parse (pyStrip content) = none →
      load_state parse ⟨some content, b⟩ = (none, ⟨none, some content⟩)) ∧
    (pyStrip content = "" →
      load_state parse ⟨some content, b⟩ = (none, ⟨some content, b⟩)) ∧
    (∀ st, pyStrip content ≠ "" → parse (pyStrip content) = some st →
      load_state parse ⟨some content, b⟩ = (some st, ⟨some content, b⟩)) := by
  refine ⟨rfl, ?_, ?_, ?_⟩
  · intro hne hparse
    simp [load_state, hne, hparse]
  · intro he
    simp [load_state, he]
  · intro st hne hparse
    simp [load_state, hne, hparse]

/-- Witness for C3 (amended): concrete corrupt non-empty content is backed
up; a missing file loads fresh; and a file holding only the control
character U+001C — whitespace for Python's `strip()` — takes the
empty-content branch, creating no backup. -/
theorem C3_corrupt_state_recovery_witness :
    load_state (fun _ => none) ⟨some "not-json", none⟩ =
      (none, ⟨none, some "not-json"⟩) ∧
    load_state (fun _ => none) ⟨none, none⟩ = (none, ⟨none, none⟩) ∧
    load_state (fun _ => none) ⟨some "\x1c", none⟩ =
      (none, ⟨some "\x1c", none⟩) :=
  ⟨(C3_corrupt_state_recovery (fun _ => none) "not-json" none).2.1
      (by decide) rfl,
   (C3_corrupt_state_recovery (fun _ => none) "" none).1,
   (C3_corrupt_state_recovery (fun _ => none) "\x1c" none).2.2.1 (by decide)⟩

/-- Counterexample to claim C4: the operation sequence `save_state` performs
is a direct write to the state-file path — it does not have the
write-to-temporary-then-rename shape the claim requires. -/
theorem C4_save_not_atomic_counterexample :
    atomicSavePattern (save_state_ops "state") = false := by rfl

/-- Claim C4 as amended: every invocation of `save_state` ensures the parent
directory exists and then writes the serialized state directly to the final
state-file path, performing no write to a temporary location and no
rename/replace; consequently its operation sequence never has the atomic
save pattern the spec prescribes. -/
theorem C4_save_in_place (s : String) :
    save_state_ops s =
      [FsOp.mkdirParents STATE_DIR_PATH, FsOp.writeFile STATE_FILE_PATH s] ∧
    atomicSavePattern (save_state_ops s) = false := by
  constructor
  · rfl
  · simp [atomicSavePattern, save_state_ops]

/-- Whenever a call to `upload_aip` returns with a completed set different
from the one it was given (the only changes are additions of the file's
name), the trace it emitted contains a `save_state` of exactly the new
completed set — the checkpoint happens before the task returns. -/
lemma upload_aip_save_on_change (ctx : UploadCtx) (name : String) :
    ∀ (k a : Nat), MAX_RETRIES - a = k → ∀ uploaded : List String,
      (upload_aip ctx name uploaded a).2.1 ≠ uploaded →
      Event.saveState (upload_aip ctx name uploaded a).2.1 none 1 ∈
        (upload_aip ctx name uploaded a).2.2 := by
  intro k
  induction k with
  | zero =>
    intro a hk uploaded hch
    rw [upload_aip] at hch ⊢
    by_cases hmem : name ∈ uploaded
    · simp [hmem] at hch
    by_cases hrem : ctx.remoteExists name
    · simp [hmem, hrem] at hch ⊢
    · cases hout : ctx.outcome name a with
      | success => simp [hmem, hrem, hout] at hch ⊢
      | interrupt => simp [hmem, hrem, hout] at hch
      | failure e =>
        have hlt : ¬ a < MAX_RETRIES := by omega
        simp [hmem, hrem, hout, hlt] at hch
      | timeout =>
        have hlt : ¬ a < MAX_RETRIES := by omega
        simp [hmem, hrem, hout, hlt] at hch
  | succ k ih =>
    intro a hk uploaded hch
    have halt : a < MAX_RETRIES := by omega
    rw [upload_aip] at hch ⊢
    by_cases hmem : name ∈ uploaded
    · simp [hmem] at hch
    by_cases hrem : ctx.remoteExists name
    · simp [hmem, hrem] at hch ⊢
    · cases hout : ctx.outcome name a with
      | success => simp [hmem, hrem, hout] at hch ⊢
      | interrupt => simp [hmem, hrem, hout] at hch
      | failure e =>
        simp only [hmem, hrem, hout, halt] at hch ⊢
        simp [halt] at hch ⊢
        exact Or.inr (ih (a + 1) (by omega) uploaded hch)
      | timeout =>
        simp only [hmem, hrem, hout, halt] at hch ⊢
        simp [halt] at hch ⊢
        exact Or.inr (ih (a + 1) (by omega) uploaded hch)

/-- Claim C6: (i) any `upload_aip` call that changes the completed set emits
a `save_state` of the new set before returning; (ii) a retry transition
saves the in-flight marker `(name, attempt+1)` before the next attempt
starts; (iii) crash-safety scenario — after file `A` succeeds on its first
attempt, the last checkpoint on disk is `completed = {A}` with no in-flight
marker, so a process killed before processing `B` reloads `{A}` and still
has `B` pending in `remaining_files`. -/
theorem C6_checkpoint_crash_safety (ctx : UploadCtx) (A B : String)
    (hAB : B ≠ A) (hrem : ctx.remoteExists A = false)
    (hout : ctx.outcome A 1 = AttemptOutcome.success) :
    (∀ (name : String) (uploaded : List String) (attempt : Nat),
      (upload_aip ctx name uploaded attempt).2.1 ≠ uploaded →
      Event.saveState (upload_aip ctx name uploaded attempt).2.1 none 1 ∈
        (upload_aip ctx name uploaded attempt).2.2) ∧
    (∀ (name : String) (uploaded : List String) (a : Nat) (e : String),
      name ∉ uploaded → ctx.remoteExists name = false →
      ctx.outcome name a = AttemptOutcome.failure e → a < MAX_RETRIES →
      Event.saveState uploaded (some name) (a + 1) ∈
        (upload_aip ctx name uploaded a).2.2) ∧
    lastSavedState (upload_aip ctx A [] 1).2.2 = some ([A], none, 1) ∧
    remainingFiles [A, B] [A] = [B] := by
  refine ⟨?_, ?_, ?_, ?_⟩
  · intro name uploaded attempt
    exact upload_aip_save_on_change ctx name (MAX_RETRIES - attempt) attempt rfl
      uploaded
  · intro name uploaded a e hmem hr ho hlt
    rw [upload_aip]
    simp [hmem, hr, ho, hlt]
  · rw [upload_aip]
    simp [hrem, hout, preEvents, lastSavedState]
  · simp [remainingFiles, hAB]

/-- Witness for C6: concrete crash-safety scenario with files `A.7z`,
`B.7z`, the first succeeding at attempt 1. -/
theorem C6_checkpoint_crash_safety_witness :
    lastSavedState (upload_aip ctxAllOk "A.7z" [] 1).2.2 =
      some (["A.7z"], none, 1) ∧
    remainingFiles ["A.7z", "B.7z"] ["A.7z"] = ["B.7z"] :=
  ⟨(C6_checkpoint_crash_safety ctxAllOk "A.7z" "B.7z" (by decide) rfl rfl).2.2.1,
   (C6_checkpoint_crash_safety ctxAllOk "A.7z" "B.7z" (by decide) rfl rfl).2.2.2⟩

/-- `upload_aip` never invokes `cleanup_segments` on any attempt after the
first: the `if attempt == 1` guard is the only call site inside the retry
ladder. -/
lemma upload_aip_no_cleanup_ge2 (ctx : UploadCtx) (name : String) :
    ∀ (k a : Nat), MAX_RETRIES - a = k → 2 ≤ a → ∀ uploaded : List String,
      cleanupCount (upload_aip ctx name uploaded a).2.2 = 0 := by
  intro k
  induction k with
  | zero =>
    intro a hk ha uploaded
    have hpre : preEvents name a = [] := by
      unfold preEvents
      rw [if_neg]
      omega
    rw [upload_aip]
    by_cases hmem : name ∈ uploaded
    · simp [hmem]
    by_cases hrem : ctx.remoteExists name
    · simp [hmem, hrem]
    · have hlt : ¬ a < MAX_RETRIES := by omega
      cases hout : ctx.outcome name a <;> simp [hmem, hrem, hout, hlt, hpre]
  | succ k ih =>
    intro a hk ha uploaded
    have halt : a < MAX_RETRIES := by omega
    have hpre : preEvents name a = [] := by
      unfold preEvents
      rw [if_neg]
      omega
    have iha := ih (a + 1) (by omega) (by omega) uploaded
    rw [upload_aip]
    by_cases hmem : name ∈ uploaded
    · simp [hmem]
    by_cases hrem : ctx.remoteExists name
    · simp [hmem, hrem]
    · cases hout : ctx.outcome name a <;>
        simp [hmem, hrem, hout, halt, hpre, iha]

/-- Claim C8 as amended: on a fresh (not completed, not remote) file,
`cleanup_segments` is invoked exactly once per `upload_aip` task — as the
very first emitted action, proactively before the first attempt, whether or
not the upload is segmented — and never again after a failed or timed-out
attempt, neither before a retry nor before the terminal failure record. -/
theorem C8_cleanup_only_proactive (ctx : UploadCtx) (name : String)
    (uploaded : List String) (hmem : name ∉ uploaded)
    (hrem : ctx.remoteExists name = false) :
    cleanupCount (upload_aip ctx name uploaded 1).2.2 = 1 ∧
    ∃ rest, (upload_aip ctx name uploaded 1).2.2 = Event.cleanup name :: rest ∧
      cleanupCount rest = 0 := by
  have h2 : (1 : Nat) < MAX_RETRIES := by simp [MAX_RETRIES]
  have hnext := upload_aip_no_cleanup_ge2 ctx name (MAX_RETRIES - 2) 2
    (by simp [MAX_RETRIES]) (by omega) uploaded
  rw [upload_aip]
  cases hout : ctx.outcome name 1 with
  | success =>
    refine ⟨?_, ?_⟩ <;>
      simp [hmem, hrem, preEvents]
  | interrupt =>
    refine ⟨?_, ?_⟩ <;>
      simp [hmem, hrem, preEvents]
  | failure e =>
    refine ⟨?_, ?_⟩ <;>
      simp [hmem, hrem, h2, preEvents, hnext]
  | timeout =>
    refine ⟨?_, ?_⟩ <;>
      simp [hmem, hrem, h2, preEvents, hnext]

/-- Counterexample to claim C8: a 6GB (segmented) upload failing on all five
attempts performs exactly one segment cleanup, and that single cleanup is the
very first action, before attempt 1 — no cleanup follows any of the five
failed attempts, contradicting "cleanup is invoked after every failed or
timed-out segmented attempt". -/
theorem C8_no_cleanup_after_failures_counterexample :
    needs_segmentation (ctxBigFail.size "big.7z") = true ∧
    uploadAttempts (upload_aip ctxBigFail "big.7z" [] 1).2.2 = [1, 2, 3, 4, 5] ∧
    (upload_aip ctxBigFail "big.7z" [] 1).2.2.head? =
      some (Event.cleanup "big.7z") ∧
    cleanupCount (upload_aip ctxBigFail "big.7z" [] 1).2.2 = 1 := by
  refine ⟨by decide, ?_, ?_, ?_⟩ <;>
    simp [upload_aip, ctxBigFail, MAX_RETRIES, preEvents]

/-- Witness for C8 (amended) at the same concrete context. -/
theorem C8_cleanup_only_proactive_witness :
    cleanupCount (upload_aip ctxBigFail "big.7z" [] 1).2.2 = 1 ∧
    ∃ rest, (upload_aip ctxBigFail "big.7z" [] 1).2.2 =
      Event.cleanup "big.7z" :: rest ∧ cleanupCount rest = 0 :=
  C8_cleanup_only_proactive ctxBigFail "big.7z" [] (by simp) rfl

/-- When no delete raises, every selected segment's delete is attempted, in
order, whatever the exit statuses, and the loop is not aborted. -/
lemma runDeletes_no_raise (del : String → DeleteOutcome) :
    ∀ ss : List String, (∀ s ∈ ss, del s ≠ DeleteOutcome.raised) →
      (runDeletes del ss).1.map Prod.fst = ss ∧
      (runDeletes del ss).2 = false := by
  intro ss
  induction ss with
  | nil => intro _; simp [runDeletes]
  | cons s rest ih =>
    intro h
    have hs := h s (by simp)
    cases hd : del s with
    | raised => exact absurd hd hs
    | exit ok =>
      have ihr := ih fun x hx => h x (by simp [hx])
      simp [runDeletes, hd, ihr.1, ihr.2]

/-- A raising delete aborts the loop: the segments before it have been
attempted, the raising one and every later one have not. -/
lemma runDeletes_raise (del : String → DeleteOutcome) :
    ∀ (xs : List String) (s : String) (ys : List String),
      (∀ x ∈ xs, del x ≠ DeleteOutcome.raised) →
      del s = DeleteOutcome.raised →
      (runDeletes del (xs ++ s :: ys)).1.map Prod.fst = xs ∧
      (runDeletes del (xs ++ s :: ys)).2 = true := by
  intro xs
  induction xs with
  | nil =>
    intro s ys _ hs
    simp [runDeletes, hs]
  | cons x xs ih =>
    intro s ys hxs hs
    have hx := hxs x (by simp)
    cases hd : del x with
    | raised => exact absurd hd hx
    | exit ok =>
      have ihr := ih s ys (fun y hy => hxs y (by simp [hy])) hs
      simp [runDeletes, hd, ihr.1, ihr.2]

/-- Counterexample to claim C9: with a successful listing containing two
orphaned segments of `big.7z` (plus one unrelated entry) and all deletes
returning exit 0, `cleanup_segments` attempts exactly the two matching
deletions but returns `None` — not the integer count of segments removed. -/
theorem C9_returns_no_count_counterexample :
    (cleanup_segments swiftCtxOrphans "big.7z").1.1 =
      [("big.7z/slo/000001", true), ("big.7z/slo/000002", true)] ∧
    (cleanup_segments swiftCtxOrphans "big.7z").2 = none ∧
    (cleanup_segments swiftCtxOrphans "big.7z").2 ≠
      some (cleanup_segments swiftCtxOrphans "big.7z").1.1.length := by
  refine ⟨by decide, rfl, by decide⟩

/-- Claim C9 as amended: when the segment listing succeeds,
`cleanup_segments` selects exactly the non-empty listed keys containing the
object name as a substring.  A delete returning a non-zero exit status
aborts nothing: when no delete raises, every selected segment's delete is
attempted, in order, whatever the exit statuses.  But a delete that raises
(e.g. `TimeoutExpired`) aborts the deletion of the remaining segments —
though not the overall call, whose outer handler swallows the exception.
And in every case the call returns `None`, never a count of removed
segments. -/
theorem C9_cleanup_contract (lst : List String) (del : String → DeleteOutcome)
    (filename : String) :
    ((∀ s ∈ selectedSegments lst filename, del s ≠ DeleteOutcome.raised) →
      ((cleanup_segments ⟨true, lst, del⟩ filename).1.1.map Prod.fst =
        selectedSegments lst filename ∧
       (cleanup_segments ⟨true, lst, del⟩ filename).1.2 = false)) ∧
    (∀ (xs : List String) (s : String) (ys : List String),
      selectedSegments lst filename = xs ++ s :: ys →
      (∀ x ∈ xs, del x ≠ DeleteOutcome.raised) →
      del s = DeleteOutcome.raised →
      ((cleanup_segments ⟨true, lst, del⟩ filename).1.1.map Prod.fst = xs ∧
       (cleanup_segments ⟨true, lst, del⟩ filename).1.2 = true)) ∧
    (cleanup_segments ⟨true, lst, del⟩ filename).2 = none := by
  refine ⟨?_, ?_, rfl⟩
  · intro h
    have hr := runDeletes_no_raise del (selectedSegments lst filename) h
    exact ⟨by simpa [cleanup_segments] using hr.1,
           by simpa [cleanup_segments] using hr.2⟩
  · intro xs s ys hsel hxs hs
    have hr := runDeletes_raise del xs s ys hxs hs
    have hc : cleanup_segments ⟨true, lst, del⟩ filename =
        (runDeletes del (xs ++ s :: ys), none) := by
      simp [cleanup_segments, hsel]
    rw [hc]
    exact ⟨hr.1, hr.2⟩

/-- Witness for C9 (amended): on the concrete orphaned-segment listing, with
all deletes returning normally both matches are attempted in order; with the
second delete timing out only the first is attempted and the loop aborts;
and the call returns `None`. -/
theorem C9_cleanup_contract_witness :
    ((cleanup_segments swiftCtxOrphans "big.7z").1.1.map Prod.fst =
      ["big.7z/slo/000001", "big.7z/slo/000002"] ∧
     (cleanup_segments swiftCtxOrphans "big.7z").1.2 = false) ∧
    ((cleanup_segments swiftCtxRaise "big.7z").1.1.map Prod.fst =
      ["big.7z/slo/000001"] ∧
     (cleanup_segments swiftCtxRaise "big.7z").1.2 = true) ∧
    (cleanup_segments swiftCtxRaise "big.7z").2 = none := by
  have hsel : selectedSegments swiftCtxOrphans.listing "big.7z" =
      ["big.7z/slo/000001", "big.7z/slo/000002"] := by decide
  refine ⟨?_, ?_,
    (C9_cleanup_contract swiftCtxRaise.listing swiftCtxRaise.deleteRes
      "big.7z").2.2⟩
  · have h := (C9_cleanup_contract swiftCtxOrphans.listing
      swiftCtxOrphans.deleteRes "big.7z").1 (by decide)
    rw [hsel] at h
    exact h
  · exact (C9_cleanup_contract swiftCtxRaise.listing swiftCtxRaise.deleteRes
      "big.7z").2.1 ["big.7z/slo/000001"] "big.7z/slo/000002" []
      (by decide) (by decide) (by decide)

/-- If no attempt outcome is a `KeyboardInterrupt`, `upload_aip` always
returns normally (never re-raises). -/
lemma upload_aip_no_interrupt (ctx : UploadCtx)
    (hno : ∀ f n, ctx.outcome f n ≠ AttemptOutcome.interrupt) (name : String) :
    ∀ (k a : Nat), MAX_RETRIES - a = k → ∀ uploaded : List String,
      (upload_aip ctx name uploaded a).1 ≠ UploadRet.interrupted := by
  intro k
  induction k with
  | zero =>
    intro a hk uploaded
    rw [upload_aip]
    by_cases hmem : name ∈ uploaded
    · simp [hmem]
    by_cases hrem : ctx.remoteExists name
    · simp [hmem, hrem]
    · have hlt : ¬ a < MAX_RETRIES := by omega
      cases hout : ctx.outcome name a with
      | interrupt => exact absurd hout (hno name a)
      | success => simp [hmem, hrem, hout]
      | failure e => simp [hmem, hrem, hout, hlt]
      | timeout => simp [hmem, hrem, hout, hlt]
  | succ k ih =>
    intro a hk uploaded
    have halt : a < MAX_RETRIES := by omega
    have iha := ih (a + 1) (by omega) uploaded
    rw [upload_aip]
    by_cases hmem : name ∈ uploaded
    · simp [hmem]
    by_cases hrem : ctx.remoteExists name
    · simp [hmem, hrem]
    · cases hout : ctx.outcome name a with
      | interrupt => exact absurd hout (hno name a)
      | success => simp [hmem, hrem, hout]
      | failure e => simp [hmem, hrem, hout, halt, iha]
      | timeout => simp [hmem, hrem, hout, halt, iha]

/-- A `False` return from arch-importer's `upload_aip` always comes with a
`Failed` CSV record for that file in the task's own trace. -/
lemma upload_aip_false_logs (ctx : UploadCtx) (name : String) :
    ∀ (k a : Nat), MAX_RETRIES - a = k → ∀ uploaded : List String,
      (upload_aip ctx name uploaded a).1 = UploadRet.ok false →
      ∃ n err, (name, "Failed", n, err) ∈
        csvRecords (upload_aip ctx name uploaded a).2.2 := by
  intro k
  induction k with
  | zero =>
    intro a hk uploaded hres
    rw [upload_aip] at hres ⊢
    by_cases hmem : name ∈ uploaded
    · simp [hmem] at hres
    by_cases hrem : ctx.remoteExists name
    · simp [hmem, hrem] at hres
    · have hlt : ¬ a < MAX_RETRIES := by omega
      cases hout : ctx.outcome name a with
      | success => simp [hmem, hrem, hout] at hres
      | interrupt => simp [hmem, hrem, hout] at hres
      | failure e =>
        refine ⟨a, e, ?_⟩
        simp [hmem, hrem, hout, hlt]
      | timeout =>
        refine ⟨a, "Timeout", ?_⟩
        simp [hmem, hrem, hout, hlt]
  | succ k ih =>
    intro a hk uploaded hres
    have halt : a < MAX_RETRIES := by omega
    rw [upload_aip] at hres ⊢
    by_cases hmem : name ∈ uploaded
    · simp [hmem] at hres
    by_cases hrem : ctx.remoteExists name
    · simp [hmem, hrem] at hres
    · cases hout : ctx.outcome name a with
      | success => simp [hmem, hrem, hout] at hres
      | interrupt => simp [hmem, hrem, hout] at hres
      | failure e =>
        simp only [hmem, hrem, hout] at hres ⊢
        simp [halt] at hres ⊢
        obtain ⟨n, err, hn⟩ := ih (a + 1) (by omega) uploaded hres
        exact ⟨n, err, hn⟩
      | timeout =>
        simp only [hmem, hrem, hout] at hres ⊢
        simp [halt] at hres ⊢
        obtain ⟨n, err, hn⟩ := ih (a + 1) (by omega) uploaded hres
        exact ⟨n, err, hn⟩

/-- A `False` return from warc-importer's `upload_aip` always comes with a
`Failed` CSV record for that file in the task's own trace. -/
lemma warc_upload_false_logs (ctx : WarcCtx) (name : String) :
    ∀ (k a : Nat), MAX_RETRIES - a = k →
      (warc_upload_aip ctx name a).1 = false →
      ∃ n err, (name, "Failed", n, err) ∈
        csvRecords (warc_upload_aip ctx name a).2 := by
  intro k
  induction k with
  | zero =>
    intro a hk hres
    rw [warc_upload_aip] at hres ⊢
    have hlt : ¬ a < MAX_RETRIES := by omega
    cases hout : ctx.outcome name a with
    | success => simp [hout] at hres
    | failure e =>
      refine ⟨a, e, ?_⟩
      simp [hout, hlt]
    | timeout =>
      refine ⟨a, "Upload timed out after 14400 seconds", ?_⟩
      simp [hout, hlt]
  | succ k ih =>
    intro a hk hres
    have halt : a < MAX_RETRIES := by omega
    rw [warc_upload_aip] at hres ⊢
    cases hout : ctx.outcome name a with
    | success => simp [hout] at hres
    | failure e =>
      simp only [hout] at hres ⊢
      simp [halt] at hres ⊢
      obtain ⟨n, err, hn⟩ := ih (a + 1) (by omega) hres
      exact ⟨n, err, hn⟩
    | timeout =>
      simp only [hout] at hres ⊢
      simp [halt] at hres ⊢
      obtain ⟨n, err, hn⟩ := ih (a + 1) (by omega) hres
      exact ⟨n, err, hn⟩

/-- Without a `KeyboardInterrupt`, arch-importer's per-file loop never stops
early: it emits one terminal result per file, in order. -/
lemma arch_loop_total (ctx : UploadCtx)
    (hno : ∀ f n, ctx.outcome f n ≠ AttemptOutcome.interrupt) :
    ∀ files uploaded : List String,
      (arch_loop ctx files uploaded).1.map Prod.fst = files ∧
      (arch_loop ctx files uploaded).2.2.2 = false := by
  intro files
  induction files with
  | nil => intro uploaded; simp [arch_loop]
  | cons f rest ih =>
    intro uploaded
    have hni := upload_aip_no_interrupt ctx hno f (MAX_RETRIES - 1) 1 rfl uploaded
    rw [arch_loop]
    cases hr : (upload_aip ctx f uploaded 1).1 with
    | interrupted => exact absurd hr hni
    | ok b =>
      have ihr := ih (upload_aip ctx f uploaded 1).2.1
      simp [hr, ihr.1, ihr.2]

/-- Claim C7 as amended: in both importers' per-file upload loops a task's
terminal failure never aborts the processing of subsequent tasks — without a
`KeyboardInterrupt`, arch-importer's loop emits a terminal result for every
file in order, warc-importer's loop does so unconditionally, and in both a
`False` (terminally failed) task has a `Failed` record in its own trace.
However, warc-importer's pre-loop test upload — whose test file is taken
from the task list — aborts the entire run when it terminally fails, before
the loop processes any task. -/
theorem C7_run_continuation (ctx : UploadCtx) (wctx : WarcCtx)
    (files uploaded : List String)
    (hno : ∀ f n, ctx.outcome f n ≠ AttemptOutcome.interrupt) :
    ((arch_loop ctx files uploaded).1.map Prod.fst = files ∧
     (arch_loop ctx files uploaded).2.2.2 = false) ∧
    (∀ (name : String) (up : List String),
      (upload_aip ctx name up 1).1 = UploadRet.ok false →
      ∃ n err, (name, "Failed", n, err) ∈
        csvRecords (upload_aip ctx name up 1).2.2) ∧
    ((warc_loop wctx files).map Prod.fst = files) ∧
    (∀ name : String, (warc_upload_aip wctx name 1).1 = false →
      ∃ n err, (name, "Failed", n, err) ∈
        csvRecords (warc_upload_aip wctx name 1).2) ∧
    (∀ (f : String) (rest : List String),
      (warc_upload_aip wctx (warcTestFile wctx f rest) 1).1 = false →
      warc_main wctx (f :: rest) = ([], true)) := by
  refine ⟨arch_loop_total ctx hno files uploaded, ?_, ?_, ?_, ?_⟩
  · intro name up hres
    exact upload_aip_false_logs ctx name (MAX_RETRIES - 1) 1 rfl up hres
  · simp [warc_loop, Function.comp_def]
  · intro name hres
    exact warc_upload_false_logs wctx name (MAX_RETRIES - 1) 1 rfl hres
  · intro f rest htest
    rw [warc_main, htest]
    simp

/-- Counterexample to claim C7: in warc-importer, with every upload failing,
the task list `[a.warc, b.warc]` produces no loop results at all — the test
upload of `a.warc` reaches terminal failure and `main` stops before
processing `b.warc`, so a task's terminal failure does abort the processing
of subsequent tasks. -/
theorem C7_warc_test_abort_counterexample :
    (warc_upload_aip wctxAllFail "a.warc" 1).1 = false ∧
    warcTestFile wctxAllFail "a.warc" ["b.warc"] = "a.warc" ∧
    warc_main wctxAllFail ["a.warc", "b.warc"] = ([], true) := by
  refine ⟨?_, by decide, ?_⟩ <;>
    simp [warc_main, warc_loop, warcTestFile, warc_upload_aip, wctxAllFail,
      MAX_RETRIES]

/-- Witness for C7 (amended): concrete loops over two files with every
attempt failing. -/
theorem C7_run_continuation_witness :
    ((arch_loop ctxAllFail ["a.7z", "b.7z"] []).1.map Prod.fst =
      ["a.7z", "b.7z"] ∧
     (arch_loop ctxAllFail ["a.7z", "b.7z"] []).2.2.2 = false) ∧
    ((warc_loop wctxAllFail ["a.warc", "b.warc"]).map Prod.fst =
      ["a.warc", "b.warc"]) :=
  ⟨(C7_run_continuation ctxAllFail wctxAllFail ["a.7z", "b.7z"] []
      (fun f n => by simp [ctxAllFail])).1,
   (C7_run_continuation ctxAllFail wctxAllFail ["a.warc", "b.warc"] []
      (fun f n => by simp [ctxAllFail])).2.2.1⟩

/-- Claim C10: whenever arch-importer's per-file loop finishes without a
`KeyboardInterrupt` — in particular even when uploads ended in terminal
failure — `main` unconditionally deletes the persisted state file, so no
completed-set checkpoint survives an uninterrupted run. -/
theorem C10_state_file_deleted (ctx : UploadCtx) (tasks uploaded0 : List String)
    (init : Option (List String × Option String × Nat))
    (hno : ∀ f n, ctx.outcome f n ≠ AttemptOutcome.interrupt) :
    (arch_main ctx tasks uploaded0).2.2.2 = false ∧
    finalStateFile init (arch_main ctx tasks uploaded0).2.2.1 = none := by
  have hloop := (arch_loop_total ctx hno (remainingFiles tasks uploaded0)
    uploaded0).2
  unfold arch_main
  simp [hloop, finalStateFile, List.foldl_append, applyStateEvent]

/-- Witness for C10: a run whose single task fails all five attempts still
ends with the state file removed. -/
theorem C10_state_file_deleted_witness :
    (arch_main ctxAllFail ["a.7z"] []).1 = [("a.7z", false)] ∧
    (arch_main ctxAllFail ["a.7z"] []).2.2.2 = false ∧
    finalStateFile (some ([], none, 1))
      (arch_main ctxAllFail ["a.7z"] []).2.2.1 = none :=
  ⟨by simp [arch_main, arch_loop, remainingFiles, upload_aip, ctxAllFail,
      MAX_RETRIES, preEvents],
   (C10_state_file_deleted ctxAllFail ["a.7z"] [] (some ([], none, 1))
      (fun f n => by simp [ctxAllFail])).1,
   (C10_state_file_deleted ctxAllFail ["a.7z"] [] (some ([], none, 1))
      (fun f n => by simp [ctxAllFail])).2⟩

end OlrcImporter
